import Mathlib

/-!
Verification development for the ssr-sandbox repository: a secure sandbox
for server-side rendering of JavaScript bundles.  The definitions below are
shallow embeddings of the Rust source files under src/: the props sanitizer
(src/sanitize.rs), the sandboxed module loader (src/loader.rs), the gated
fetch client (src/fetch.rs), the execution driver (src/runtime.rs) and the
server-mode request loop (src/main.rs).  External collaborators (the url
crate, the filesystem, the HTTP client, the V8 engine) are modelled as
explicit oracle structures whose behaviour the embedded code consumes.
-/

namespace SsrSandbox

/-! ## JSON values (serde_json::Value)

Numbers are modelled as integers: the sanitizer treats every number as an
opaque primitive, so the numeric payload is irrelevant to every claim.
Objects are association lists in serde_json map iteration order. -/

inductive Json where
  | null
  | bool (b : Bool)
  | num (n : Int)
  | str (s : String)
  | arr (items : List Json)
  | obj (fields : List (String × Json))

/-! ## Props sanitizer (src/sanitize.rs) -/

/-- `MAX_DEPTH` from src/sanitize.rs line 10. -/
def MAX_DEPTH : Nat := 32

/-- `DANGEROUS_KEYS` from src/sanitize.rs line 13. -/
def DANGEROUS_KEYS : List String := ["__proto__", "constructor", "prototype"]

/-- The two error kinds `sanitize_recursive` can produce: the depth error
(line 27) and the prototype-pollution error naming the offending key
(line 38). -/
inductive SanitizeError where
  | tooDeep
  | pollution (key : String)
deriving DecidableEq

mutual

/-- Embedding of `sanitize_recursive` (src/sanitize.rs lines 25-63).
The depth guard runs first; for objects the keys are all checked against
`DANGEROUS_KEYS` before any value is recursed into, matching the Rust
key loop followed by the rebuild loop. -/
def sanitize_recursive (v : Json) (depth : Nat) : Except SanitizeError Json :=
  if depth > MAX_DEPTH then
    .error .tooDeep
  else
    match v with
    | .obj fields =>
      match fields.find? (fun kv => DANGEROUS_KEYS.contains kv.1) with
      | some kv => .error (.pollution kv.1)
      | none =>
        match sanitizeFields fields depth with
        | .error e => .error e
        | .ok fs => .ok (.obj fs)
    | .arr items =>
      match sanitizeItems items depth with
      | .error e => .error e
      | .ok xs => .ok (.arr xs)
    | other => .ok other

/-- The rebuild loop over an object's fields: each value is sanitized at
`depth + 1` (src/sanitize.rs lines 46-49). -/
def sanitizeFields (fields : List (String × Json)) (depth : Nat) :
    Except SanitizeError (List (String × Json)) :=
  match fields with
  | [] => .ok []
  | (k, v) :: rest =>
    match sanitize_recursive v (depth + 1) with
    | .error e => .error e
    | .ok v2 =>
      match sanitizeFields rest depth with
      | .error e => .error e
      | .ok rest2 => .ok ((k, v2) :: rest2)

/-- The rebuild loop over an array's items at `depth + 1`
(src/sanitize.rs lines 52-58). -/
def sanitizeItems (items : List Json) (depth : Nat) :
    Except SanitizeError (List Json) :=
  match items with
  | [] => .ok []
  | v :: rest =>
    match sanitize_recursive v (depth + 1) with
    | .error e => .error e
    | .ok v2 =>
      match sanitizeItems rest depth with
      | .error e => .error e
      | .ok rest2 => .ok (v2 :: rest2)

end

/-- Embedding of `sanitize_props` (src/sanitize.rs line 21). -/
def sanitize_props (v : Json) : Except SanitizeError Json :=
  sanitize_recursive v 0

/-- Whether an `Except` result is an error. -/
def isErr {ε α : Type} : Except ε α → Bool
  | .error _ => true
  | .ok _ => false

mutual

/-- An object's own key list contains a dangerous key, or some nested
value (inside objects or arrays) does. -/
def containsDanger (v : Json) : Bool :=
  match v with
  | .obj fields => fields.any (fun kv => DANGEROUS_KEYS.contains kv.1) || dangerFields fields
  | .arr items => dangerItems items
  | _ => false

def dangerFields (fields : List (String × Json)) : Bool :=
  match fields with
  | [] => false
  | (_, v) :: rest => containsDanger v || dangerFields rest

def dangerItems (items : List Json) : Bool :=
  match items with
  | [] => false
  | v :: rest => containsDanger v || dangerItems rest

end

mutual

/-- Maximum recursion depth the sanitizer's traversal reaches on `v`,
with the root at depth 0: primitives and empty containers add nothing,
a container's children sit one level below it. -/
def jsonDepth (v : Json) : Nat :=
  match v with
  | .obj fields => depthFields fields
  | .arr items => depthItems items
  | _ => 0

def depthFields (fields : List (String × Json)) : Nat :=
  match fields with
  | [] => 0
  | (_, v) :: rest => max (1 + jsonDepth v) (depthFields rest)

def depthItems (items : List Json) : Nat :=
  match items with
  | [] => 0
  | v :: rest => max (1 + jsonDepth v) (depthItems rest)

end

/-! ### Character-list string helpers

Kernel-computable models of the string primitives the Rust code uses
(`str::starts_with`, splitting on a separator, ASCII case mapping). -/

/-- Prefix test on character lists (`str::starts_with`). -/
def charsHavePre (pat s : List Char) : Bool :=
  match pat, s with
  | [], _ => true
  | _ :: _, [] => false
  | p :: ps, c :: cs => p == c && charsHavePre ps cs

/-- `s.starts_with(pre)`. -/
def strStarts (s pre : String) : Bool :=
  charsHavePre pre.toList s.toList

/-- ASCII lowercase of a string. -/
def strLower (s : String) : String :=
  ⟨s.toList.map Char.toLower⟩

/-- ASCII uppercase of a string (`str::to_uppercase` on ASCII input). -/
def strUpper (s : String) : String :=
  ⟨s.toList.map Char.toUpper⟩

/-- Split on `/` (the accumulator holds the current component reversed). -/
def splitSlash : List Char → List Char → List String
  | [], acc => [⟨acc.reverse⟩]
  | c :: cs, acc =>
    if c == '/' then ⟨acc.reverse⟩ :: splitSlash cs []
    else splitSlash cs (c :: acc)

/-- Split on `.`. -/
def splitDot : List Char → List Char → List String
  | [], acc => [⟨acc.reverse⟩]
  | c :: cs, acc =>
    if c == '.' then ⟨acc.reverse⟩ :: splitDot cs []
    else splitDot cs (c :: acc)

/-! ## Sandboxed module loader (src/loader.rs)

Filesystem paths are modelled as absolute component lists (`List String`).
The filesystem (symlink resolution, directory test, file reads) and the
`url` crate (collaborators outside this repository) are oracle structures;
the loader's own logic is embedded from the source. -/

/-- The filesystem oracle: `canonicalize` resolves symlinks and `..` and
fails (`none`) when the path does not exist, `isDir` tests for a
directory, `read` reads a file as UTF-8 text (`std::fs::read_to_string`). -/
structure Fs where
  canonicalize : List String → Option (List String)
  isDir : List String → Bool
  read : List String → Option String

/-- A `url::Url` as the loader consumes it: its scheme plus, for `file`
URLs, the filesystem path components. -/
structure FileUrl where
  scheme : String
  path : List String
deriving DecidableEq

/-- `Url::to_file_path`: succeeds exactly for `file` URLs in this model. -/
def toFilePath (u : FileUrl) : Option (List String) :=
  if u.scheme == "file" then some u.path else none

/-- The `url` crate operations the loader calls, as an oracle:
`parse` is `ModuleSpecifier::parse`, `join` is `Url::join` on a referrer,
`fromFilePath` is `ModuleSpecifier::from_file_path`. -/
structure UrlLib where
  parse : String → Option FileUrl
  join : FileUrl → String → Option FileUrl
  fromFilePath : List String → Option FileUrl

/-- Split a specifier string into path components the way
`Path::join` + `Path::components` treat it: empty components (from `//`)
and `.` components disappear. -/
def strToPath (s : String) : List String :=
  (splitSlash s.toList []).filter (fun c => !(c == "" || c == "."))

/-- `SandboxedLoader` (src/loader.rs line 18): holds the canonicalized
allowed directory. -/
structure SandboxedLoader where
  allowed_dir : List String
deriving DecidableEq

/-- `SandboxedLoader::new` (src/loader.rs lines 27-40): canonicalize the
directory, require it to be a directory. -/
def SandboxedLoader.new (fs : Fs) (dir : List String) :
    Except String SandboxedLoader :=
  match fs.canonicalize dir with
  | none => .error "Failed to canonicalize allowed_dir"
  | some canonical =>
    if fs.isDir canonical then .ok ⟨canonical⟩
    else .error "allowed_dir must be a directory"

/-- `SandboxedLoader::is_path_allowed` (src/loader.rs lines 44-49):
canonicalize, then `Path::starts_with` against the allowed directory. -/
def is_path_allowed (fs : Fs) (l : SandboxedLoader) (path : List String) : Bool :=
  match fs.canonicalize path with
  | some canonical => l.allowed_dir.isPrefixOf canonical
  | none => false

/-- `Path::extension` of the final component: the text after the last
dot, none when there is no dot or the only dot is the leading one of a
hidden file. -/
def fileExt (name : String) : Option String :=
  match splitDot name.toList [] with
  | [] => none
  | [_] => none
  | "" :: [_] => none
  | parts => parts.getLast?

/-- `SandboxedLoader::is_extension_allowed` (src/loader.rs lines 52-57). -/
def is_extension_allowed (path : List String) : Bool :=
  match path.getLast? with
  | none => false
  | some name =>
    match fileExt name with
    | some "js" => true
    | some "mjs" => true
    | _ => false

/-- The shape-directed resolution of src/loader.rs lines 80-100 (the
`let resolved = ...` with its early returns): relative specifiers join
against the parsed referrer, `file://` specifiers parse directly,
absolute paths and bare specifiers go through `from_file_path`, the
latter rooted at `allowed_dir`. -/
def resolveTarget (lib : UrlLib) (l : SandboxedLoader)
    (specifier referrer : String) : Except String FileUrl :=
  if strStarts specifier "./" || strStarts specifier "../" then
    match lib.parse referrer with
    | none => .error "Invalid referrer"
    | some r =>
      match lib.join r specifier with
      | none => .error "Failed to resolve"
      | some u => .ok u
  else if strStarts specifier "file://" then
    match lib.parse specifier with
    | none => .error "Invalid file URL"
    | some u => .ok u
  else if strStarts specifier "/" then
    match lib.fromFilePath (strToPath specifier) with
    | none => .error "Invalid absolute path"
    | some u => .ok u
  else
    match lib.fromFilePath (l.allowed_dir ++ strToPath specifier) with
    | none => .error "Invalid bare specifier"
    | some u => .ok u

/-- `SandboxedLoader::resolve` (src/loader.rs lines 61-132): remote-URL
prefix rejection, shape-directed resolution, `file` scheme check,
containment check, extension check. -/
def resolve (lib : UrlLib) (fs : Fs) (l : SandboxedLoader)
    (specifier referrer : String) : Except String FileUrl :=
  if strStarts specifier "http://" || strStarts specifier "https://" ||
      strStarts specifier "data:" || strStarts specifier "blob:" then
    .error "Remote imports are forbidden"
  else
    match resolveTarget lib l specifier referrer with
    | .error e => .error e
    | .ok resolved =>
      if resolved.scheme ≠ "file" then
        .error "Only file URLs allowed"
      else
        match toFilePath resolved with
        | none => .error "Failed to convert URL to path"
        | some path =>
          if !is_path_allowed fs l path then
            .error "Access denied: outside the allowed directory"
          else if !is_extension_allowed path then
            .error "Only js and mjs files allowed"
          else
            .ok resolved

/-- `SandboxedLoader::load` (src/loader.rs lines 134-188): convert the
specifier to a path, re-check containment and extension, read the file. -/
def load (fs : Fs) (l : SandboxedLoader) (specifier : FileUrl) :
    Except String String :=
  match toFilePath specifier with
  | none => .error "Invalid file path"
  | some path =>
    if !is_path_allowed fs l path then
      .error "Access denied"
    else if !is_extension_allowed path then
      .error "Invalid extension"
    else
      match fs.read path with
      | none => .error "Failed to read"
      | some code => .ok code

/-! ### Concrete loader fixtures

`fsDemo` is a small concrete filesystem: `/srv/chunks` is a directory,
`/srv/chunks/entry.js` is a file, and (mirroring a real Linux tree) the
path `/srv/chunks/HTTP:/evil.com/x.js` exists inside the chunks
directory.  `/etc/evil.js` exists outside it.  Every existing path is
already canonical.  `libDemo` mirrors the url crate on file paths. -/

def demoPaths : List (List String) :=
  [["srv", "chunks"],
   ["srv", "chunks", "entry.js"],
   ["srv", "chunks", "HTTP:", "evil.com", "x.js"],
   ["etc", "evil.js"]]

def fsDemo : Fs where
  canonicalize p := if p ∈ demoPaths then some p else none
  isDir p := p == ["srv", "chunks"]
  read p := if p == ["srv", "chunks", "entry.js"] then some "export default 1" else none

def libDemo : UrlLib where
  parse _ := none
  join _ _ := none
  fromFilePath p := some ⟨"file", p⟩

def loaderDemo : SandboxedLoader := ⟨["srv", "chunks"]⟩

/-! ## Execution driver (src/runtime.rs) -/

/-- `ConsoleOutput` (src/runtime.rs lines 21-25). -/
structure ConsoleOutput where
  logs : List String
  warns : List String
  errors : List String
deriving DecidableEq

def ConsoleOutput.empty : ConsoleOutput := ⟨[], [], []⟩

/-- Concatenation of console buffers: the ops append entries to the
buffer held in op state during a render. -/
def ConsoleOutput.append (a b : ConsoleOutput) : ConsoleOutput :=
  ⟨a.logs ++ b.logs, a.warns ++ b.warns, a.errors ++ b.errors⟩

/-- `SsrResult` (src/runtime.rs lines 29-32). -/
structure SsrResult where
  html : String
  console : ConsoleOutput
deriving DecidableEq

/-- Substring test on character lists (Rust `str::contains`). -/
def charsContain (pat : List Char) : List Char → Bool
  | [] => charsHavePre pat []
  | c :: cs => charsHavePre pat (c :: cs) || charsContain pat cs

/-- `err_str.contains(pat)` from src/runtime.rs line 251. -/
def strContains (s pat : String) : Bool :=
  charsContain pat.toList s.toList

/-- The state of the value produced by the render invocation after the
event loop has been drained, plus the case where `execute_script` or
`run_event_loop` itself returned an error (propagated by `?`).  This is
the V8-side outcome `execute_ssr_inner` inspects in src/runtime.rs lines
286-323; the engine itself is outside this repository. -/
inductive RenderOutcome where
  | engineErr (msg : String)
  | promiseFulfilledString (s : String)
  | promiseFulfilledNonString
  | promiseRejected (reason : String)
  | promisePending
  | plainString (s : String)
  | otherValue
deriving DecidableEq

/-- The result-inspection logic of `execute_ssr_inner` (src/runtime.rs
lines 286-335) as a function of the drained outcome and the console
buffer captured in op state. -/
def execute_ssr_inner_model (outcome : RenderOutcome) (console : ConsoleOutput) :
    Except String SsrResult :=
  match outcome with
  | .engineErr m => .error m
  | .promiseFulfilledString s => .ok ⟨s, console⟩
  | .promiseFulfilledNonString => .error "Render function must return a string"
  | .promiseRejected r => .error ("Render function threw: " ++ r)
  | .promisePending => .error "Render function returned unresolved promise"
  | .plainString s => .ok ⟨s, console⟩
  | .otherValue => .error "Render function must return a string"

/-- The error-rewriting applied by `execute_ssr` when a timeout is
configured (src/runtime.rs lines 246-261): an error matching the
termination signature becomes the canonical timeout message. -/
def timeout_rewrite (ms : Nat) (r : Except String SsrResult) :
    Except String SsrResult :=
  match r with
  | .error e =>
    if strContains e "terminated" || strContains e "unresolved promise" ||
        strContains e "Uncaught Error: execution terminated" then
      .error ("Render timed out after " ++ toString ms ++ "ms")
    else
      .error e
  | .ok r => .ok r

/-- `execute_ssr` (src/runtime.rs lines 224-265): with a timeout the
inner result goes through the termination-signature rewrite, without one
it is returned unchanged. -/
def execute_ssr_model (timeout_ms : Option Nat) (outcome : RenderOutcome)
    (console : ConsoleOutput) : Except String SsrResult :=
  match timeout_ms with
  | some ms => timeout_rewrite ms (execute_ssr_inner_model outcome console)
  | none => execute_ssr_inner_model outcome console

/-- Display of a `file` module specifier, as interpolated into the render
invocation. -/
def urlDisplay (u : FileUrl) : String :=
  "file:///" ++ String.intercalate "/" u.path

/-- The render invocation expression built in src/runtime.rs lines
281-284 (`props_json` is the serde_json serialization of the sanitized
props, a collaborator). -/
def renderCode (u : FileUrl) (props_json : String) : String :=
  "globalThis.__ssr_internal_render__(\"" ++ urlDisplay u ++ "\", " ++ props_json ++ ")"

/-- The prefix of `execute_ssr_inner` that runs before anything is handed
to the engine (src/runtime.rs lines 272-284): canonicalize the entry
point, build the module specifier, construct the invocation expression.
Its `.ok` value is the expression `execute_script` receives. -/
def execute_ssr_prepare (fs : Fs) (lib : UrlLib) (entry_point : List String)
    (props_json : String) : Except String String :=
  match fs.canonicalize entry_point with
  | none => .error "Invalid entry point"
  | some entry_path =>
    match lib.fromFilePath entry_path with
    | none => .error "Failed to create module specifier"
    | some spec => .ok (renderCode spec props_json)

/-! ## Gated fetch (src/fetch.rs)

URLs on the fetch side are modelled by their origin ascii serialization
plus their full serialization; the `url` crate's parsing and joining and
the HTTP client's sending are oracles in `HttpWorld`. -/

/-- A parsed `url::Url` as the fetch path consumes it. -/
structure WebUrl where
  origin : String
  full : String
deriving DecidableEq

/-- `FetchConfig` (src/fetch.rs lines 19-23). -/
structure FetchConfig where
  allowed_origins : List String
deriving DecidableEq

/-- `FetchConfig::is_origin_allowed` (src/fetch.rs lines 26-35). -/
def FetchConfig.is_origin_allowed (c : FetchConfig) (u : WebUrl) : Bool :=
  if c.allowed_origins.isEmpty then false
  else c.allowed_origins.any (fun allowed => u.origin == allowed)

/-- `FetchRequest` (src/fetch.rs lines 40-48). -/
structure FetchRequest where
  url : String
  method : Option String
  headers : Option (List (String × String))
  body : Option String
deriving DecidableEq

/-- `FetchResponse` (src/fetch.rs lines 52-59). -/
structure FetchResponse where
  ok : Bool
  status : Nat
  status_text : String
  headers : List (String × String)
  url : String
  body : String
deriving DecidableEq

/-- A raw HTTP response from the client oracle: status, headers (names
already lowercased by the http crate, values assumed valid strings),
final URL and text body. -/
structure HttpResponse where
  status : Nat
  headers : List (String × String)
  url : WebUrl
  body : String
deriving DecidableEq

/-- The collaborators of `do_fetch`: URL parsing/joining (url crate),
request sending (reqwest with redirects disabled), and the status-text
table (`StatusCode::canonical_reason`). -/
structure HttpWorld where
  parse : String → Option WebUrl
  join : WebUrl → String → Option WebUrl
  send : FetchRequest → Except String HttpResponse
  statusText : Nat → String

/-- The `match ... to_uppercase` method check of src/fetch.rs lines
102-111. -/
def methodSupported (m : String) : Bool :=
  let u := strUpper m
  u == "GET" || u == "POST" || u == "PUT" || u == "DELETE" ||
    u == "PATCH" || u == "HEAD" || u == "OPTIONS"

/-- `response.headers().get("location")` (header names are lowercase in
the http crate). -/
def headerGet (hs : List (String × String)) (name : String) : Option String :=
  (hs.find? (fun kv => kv.1 == name)).map (fun kv => kv.2)

/-- Collapsing response headers into a map: later duplicates replace
earlier ones (HashMap::insert, src/fetch.rs lines 173-178). -/
def insertHeader (acc : List (String × String)) (kv : String × String) :
    List (String × String) :=
  if acc.any (fun e => e.1 == kv.1) then
    acc.map (fun e => if e.1 == kv.1 then kv else e)
  else
    acc ++ [kv]

def collapseHeaders (hs : List (String × String)) : List (String × String) :=
  hs.foldl insertHeader []

/-- Building the `FetchResponse` returned to JS (src/fetch.rs lines
180-193). -/
def mkFetchResponse (w : HttpWorld) (r : HttpResponse) : FetchResponse :=
  { ok := decide (200 ≤ r.status ∧ r.status < 300)
    status := r.status
    status_text := w.statusText r.status
    headers := collapseHeaders r.headers
    url := r.url.full
    body := r.body }

/-- `do_fetch` (src/fetch.rs lines 79-194).  Returns the result together
with the list of requests actually handed to the HTTP client, in order.
The Rust function recurses unboundedly on redirects; `fuel` bounds that
recursion in the model and `fuel = 0` is a model artifact no claim
depends on. -/
def do_fetch (w : HttpWorld) (config : FetchConfig) :
    Nat → FetchRequest → Except String FetchResponse × List FetchRequest
  | 0, _ => (.error "too many redirects", [])
  | fuel + 1, request =>
    match w.parse request.url with
    | none => (.error ("Invalid URL: " ++ request.url), [])
    | some url =>
      if !config.is_origin_allowed url then
        (.error ("Fetch blocked: origin not in the allowlist: " ++ url.origin), [])
      else if !methodSupported (request.method.getD "GET") then
        (.error "Unsupported HTTP method", [])
      else
        match w.send request with
        | .error e => (.error ("Fetch failed: " ++ e), [request])
        | .ok response =>
          if 300 ≤ response.status ∧ response.status < 400 then
            match headerGet response.headers "location" with
            | some location =>
              match w.join response.url location with
              | none => (.error "Invalid redirect URL", [request])
              | some redirect_url =>
                if redirect_url.origin ≠ url.origin then
                  (.error ("Fetch blocked: redirect to different origin: " ++
                    redirect_url.origin), [request])
                else if !config.is_origin_allowed redirect_url then
                  (.error ("Fetch blocked: redirect origin not in the allowlist: " ++
                    redirect_url.origin), [request])
                else
                  let rreq : FetchRequest :=
                    ⟨redirect_url.full, some "GET", request.headers, none⟩
                  let rec2 := do_fetch w config fuel rreq
                  (rec2.1, request :: rec2.2)
            | none => (.ok (mkFetchResponse w response), [request])
          else
            (.ok (mkFetchResponse w response), [request])

/-- A concrete `HttpWorld` for witnesses: `https://api.example.com/x`
answers 200, `https://api.example.com/old` answers 301 with a
cross-origin `Location`, and other URLs parse per the table. -/
def webDemo : HttpWorld where
  parse s :=
    if s = "https://evil.com/x" then
      some ⟨"https://evil.com", "https://evil.com/x"⟩
    else if s = "https://api.example.com/x" then
      some ⟨"https://api.example.com", "https://api.example.com/x"⟩
    else if s = "https://api.example.com/old" then
      some ⟨"https://api.example.com", "https://api.example.com/old"⟩
    else none
  join u loc :=
    if loc = "https://evil.com/x" then
      some ⟨"https://evil.com", "https://evil.com/x"⟩
    else if loc = "/x" then some ⟨u.origin, u.origin ++ "/x"⟩
    else none
  send req :=
    if req.url = "https://api.example.com/old" then
      .ok ⟨301, [("location", "https://evil.com/x")],
        ⟨"https://api.example.com", "https://api.example.com/old"⟩, ""⟩
    else
      .ok ⟨200, [], ⟨"https://api.example.com", req.url⟩, "hello"⟩
  statusText _ := "OK"

/-! ## Server mode (src/main.rs run_server) -/

/-- One framed response: `Status:<Ok|Error>` plus the body. -/
structure ServerResponse where
  ok : Bool
  body : String
deriving DecidableEq

/-- `run_server` builds its config with
`timeout_ms: timeout_ms.or(Some(5_000))` (src/main.rs line 152), so an
absent timeout becomes the 5000 ms default. -/
def server_effective_timeout (timeout_ms : Option Nat) : Option Nat :=
  match timeout_ms with
  | some ms => some ms
  | none => some 5000

/-- The `[LOG]`/`[WARN]`/`[ERROR]` lines printed to stderr after a
successful render (src/main.rs lines 212-221). -/
def consoleLines (c : ConsoleOutput) : List String :=
  c.logs.map (fun l => "[LOG] " ++ l) ++
    c.warns.map (fun l => "[WARN] " ++ l) ++
    c.errors.map (fun l => "[ERROR] " ++ l)

/-- One server request as the loop sees it: a props line that fails JSON
parsing, a props value the sanitizer rejects, or a render reaching
`execute_ssr` whose engine-side outcome is `outcome` and whose console
ops emitted `emits` during execution. -/
inductive ServerRequest where
  | badJson (errMsg : String)
  | badProps (errMsg : String)
  | render (outcome : RenderOutcome) (emits : ConsoleOutput)
deriving DecidableEq

/-- The observable effects of one iteration of the `run_server` loop
(src/main.rs lines 166-241): the console buffer left for the next
request, the framed response, the console lines printed to stderr, and
whether the runtime was recreated. -/
structure StepResult where
  console : ConsoleOutput
  response : ServerResponse
  stderrConsole : List String
  recreated : Bool
deriving DecidableEq

/-- One iteration of the server loop.  Malformed-props requests `continue`
before the render and before the console reset (src/main.rs lines
184-204); render requests reach `execute_ssr` and afterwards the console
buffer is replaced with a fresh default (line 240), the runtime being
recreated first when the error message contains "timed out" (lines
225-236). -/
def server_step (timeoutParam : Option Nat) (console : ConsoleOutput)
    (req : ServerRequest) : StepResult :=
  match req with
  | .badJson e => ⟨console, ⟨false, "Invalid props JSON: " ++ e⟩, [], false⟩
  | .badProps e => ⟨console, ⟨false, e⟩, [], false⟩
  | .render outcome emits =>
    let during := console.append emits
    match execute_ssr_model (server_effective_timeout timeoutParam) outcome during with
    | .ok r => ⟨ConsoleOutput.empty, ⟨true, r.html⟩, consoleLines r.console, false⟩
    | .error e => ⟨ConsoleOutput.empty, ⟨false, e⟩, [], strContains e "timed out"⟩

/-- Folding the loop over a request list starting from a console state:
returns the final console state and the responses in order. -/
def server_loop (timeoutParam : Option Nat) (console : ConsoleOutput) :
    List ServerRequest → ConsoleOutput × List ServerResponse
  | [] => (console, [])
  | req :: rest =>
    let st := server_step timeoutParam console req
    let r2 := server_loop timeoutParam st.console rest
    (r2.1, st.response :: r2.2)

/-- A chain of `n` nested single-field objects, used to exercise the
depth limit. -/
def deepChain : Nat → Json
  | 0 => .null
  | n + 1 => .obj [("nested", deepChain n)]

/-! ### Induction principle for the nested `Json` type -/

theorem jsonInduction (P : Json → Prop)
    (hnull : P .null) (hbool : ∀ b, P (.bool b)) (hnum : ∀ n, P (.num n))
    (hstr : ∀ s, P (.str s))
    (harr : ∀ items, (∀ v, v ∈ items → P v) → P (.arr items))
    (hobj : ∀ fields, (∀ kv, kv ∈ fields → P kv.2) → P (.obj fields)) :
    ∀ v, P v
  | .null => hnull
  | .bool b => hbool b
  | .num n => hnum n
  | .str s => hstr s
  | .arr items => harr items (fun v hv =>
      jsonInduction P hnull hbool hnum hstr harr hobj v)
  | .obj fields => hobj fields (fun kv hkv =>
      jsonInduction P hnull hbool hnum hstr harr hobj kv.2)
termination_by v => sizeOf v
decreasing_by
  · have h1 := List.sizeOf_lt_of_mem hv
    simp only [Json.arr.sizeOf_spec]
    omega
  · have h1 := List.sizeOf_lt_of_mem hkv
    obtain ⟨k, v⟩ := kv
    simp only [Json.obj.sizeOf_spec, Prod.mk.sizeOf_spec] at *
    omega

/-! ### Step equations for the sanitizer -/

theorem san_deep (v : Json) (d : Nat) (hd : d > MAX_DEPTH) :
    sanitize_recursive v d = .error .tooDeep := by
  rw [sanitize_recursive.eq_def, if_pos hd]

theorem san_obj (fields : List (String × Json)) (d : Nat) (hd : ¬d > MAX_DEPTH) :
    sanitize_recursive (.obj fields) d =
      match fields.find? (fun kv => DANGEROUS_KEYS.contains kv.1) with
      | some kv => .error (.pollution kv.1)
      | none =>
        match sanitizeFields fields d with
        | .error e => .error e
        | .ok fs => .ok (.obj fs) := by
  rw [sanitize_recursive.eq_def, if_neg hd]

theorem san_arr (items : List Json) (d : Nat) (hd : ¬d > MAX_DEPTH) :
    sanitize_recursive (.arr items) d =
      match sanitizeItems items d with
      | .error e => .error e
      | .ok xs => .ok (.arr xs) := by
  rw [sanitize_recursive.eq_def, if_neg hd]

theorem san_null (d : Nat) (hd : ¬d > MAX_DEPTH) :
    sanitize_recursive .null d = .ok .null := by
  rw [sanitize_recursive.eq_def, if_neg hd]

theorem san_bool (b : Bool) (d : Nat) (hd : ¬d > MAX_DEPTH) :
    sanitize_recursive (.bool b) d = .ok (.bool b) := by
  rw [sanitize_recursive.eq_def, if_neg hd]

theorem san_num (n : Int) (d : Nat) (hd : ¬d > MAX_DEPTH) :
    sanitize_recursive (.num n) d = .ok (.num n) := by
  rw [sanitize_recursive.eq_def, if_neg hd]

theorem san_str (s : String) (d : Nat) (hd : ¬d > MAX_DEPTH) :
    sanitize_recursive (.str s) d = .ok (.str s) := by
  rw [sanitize_recursive.eq_def, if_neg hd]

theorem jd_null : jsonDepth .null = 0 := rfl

theorem jd_bool (b : Bool) : jsonDepth (.bool b) = 0 := rfl

theorem jd_num (n : Int) : jsonDepth (.num n) = 0 := rfl

theorem jd_str (s : String) : jsonDepth (.str s) = 0 := rfl

theorem jd_arr (items : List Json) : jsonDepth (.arr items) = depthItems items := rfl

theorem jd_obj (fields : List (String × Json)) : jsonDepth (.obj fields) = depthFields fields := rfl

theorem san_fields_nil (d : Nat) : sanitizeFields [] d = .ok [] := rfl

theorem san_fields_cons (k : String) (v : Json) (rest : List (String × Json)) (d : Nat) :
    sanitizeFields ((k, v) :: rest) d =
      match sanitize_recursive v (d + 1) with
      | .error e => .error e
      | .ok v2 =>
        match sanitizeFields rest d with
        | .error e => .error e
        | .ok rest2 => .ok ((k, v2) :: rest2) := by
  rw [sanitizeFields]

theorem san_items_nil (d : Nat) : sanitizeItems [] d = .ok [] := rfl

theorem san_items_cons (v : Json) (rest : List Json) (d : Nat) :
    sanitizeItems (v :: rest) d =
      match sanitize_recursive v (d + 1) with
      | .error e => .error e
      | .ok v2 =>
        match sanitizeItems rest d with
        | .error e => .error e
        | .ok rest2 => .ok (v2 :: rest2) := by
  rw [sanitizeItems]

/-! ### Sanitizer lemmas -/

/-- If an object's own key list triggers the `any` check, the `find?` in
`sanitize_recursive` cannot be `none`. -/
theorem find_of_any (fields : List (String × Json))
    (h : fields.any (fun kv => DANGEROUS_KEYS.contains kv.1) = true) :
    fields.find? (fun kv => DANGEROUS_KEYS.contains kv.1) ≠ none := by
  intro hnone
  obtain ⟨kv, hmem, hpred⟩ := List.any_eq_true.mp h
  exact absurd hpred (List.find?_eq_none.mp hnone kv hmem)

theorem sanFields_danger (fields : List (String × Json)) (d : Nat)
    (IH : ∀ kv, kv ∈ fields → ∀ d2, containsDanger kv.2 = true →
      isErr (sanitize_recursive kv.2 d2) = true)
    (h : dangerFields fields = true) :
    isErr (sanitizeFields fields d) = true := by
  induction fields with
  | nil => simp [dangerFields] at h
  | cons kv rest ih =>
    obtain ⟨k, v⟩ := kv
    rw [dangerFields, Bool.or_eq_true] at h
    rw [san_fields_cons]
    rcases hs : sanitize_recursive v (d + 1) with e | v2
    · rfl
    · rcases h with hv | hrest
      · have hv2 := IH (k, v) (List.mem_cons_self _ _) (d + 1) hv
        rw [hs] at hv2
        simp [isErr] at hv2
      · have hrec := ih (fun kv hm => IH kv (List.mem_cons_of_mem _ hm)) hrest
        rcases hr : sanitizeFields rest d with e | rest2
        · rfl
        · rw [hr] at hrec
          simp [isErr] at hrec

theorem sanItems_danger (items : List Json) (d : Nat)
    (IH : ∀ v, v ∈ items → ∀ d2, containsDanger v = true →
      isErr (sanitize_recursive v d2) = true)
    (h : dangerItems items = true) :
    isErr (sanitizeItems items d) = true := by
  induction items with
  | nil => simp [dangerItems] at h
  | cons v rest ih =>
    rw [dangerItems, Bool.or_eq_true] at h
    rw [san_items_cons]
    rcases hs : sanitize_recursive v (d + 1) with e | v2
    · rfl
    · rcases h with hv | hrest
      · have hv2 := IH v (List.mem_cons_self _ _) (d + 1) hv
        rw [hs] at hv2
        simp [isErr] at hv2
      · have hrec := ih (fun x hm => IH x (List.mem_cons_of_mem _ hm)) hrest
        rcases hr : sanitizeItems rest d with e | rest2
        · rfl
        · rw [hr] at hrec
          simp [isErr] at hrec

/-- Any JSON value containing a dangerous key anywhere causes
`sanitize_recursive` to error, at every starting depth. -/
theorem san_danger_err :
    ∀ v : Json, ∀ d : Nat, containsDanger v = true →
      isErr (sanitize_recursive v d) = true := by
  intro v
  induction v using jsonInduction with
  | hnull => intro d h; simp [containsDanger] at h
  | hbool b => intro d h; simp [containsDanger] at h
  | hnum n => intro d h; simp [containsDanger] at h
  | hstr s => intro d h; simp [containsDanger] at h
  | harr items IH =>
    intro d h
    rw [containsDanger] at h
    by_cases hd : d > MAX_DEPTH
    · rw [san_deep _ _ hd]; rfl
    · rw [san_arr _ _ hd]
      have herr := sanItems_danger items d IH h
      rcases hr : sanitizeItems items d with e | xs
      · rfl
      · rw [hr] at herr
        simp [isErr] at herr
  | hobj fields IH =>
    intro d h
    rw [containsDanger, Bool.or_eq_true] at h
    by_cases hd : d > MAX_DEPTH
    · rw [san_deep _ _ hd]; rfl
    · rw [san_obj _ _ hd]
      rcases hfind : fields.find? (fun kv => DANGEROUS_KEYS.contains kv.1) with _ | kv
      · rw [hfind]
        rcases h with hany | hdang
        · exact absurd hfind (find_of_any fields hany)
        · have herr := sanFields_danger fields d IH hdang
          rcases hr : sanitizeFields fields d with e | fs
          · rfl
          · rw [hr] at herr
            simp [isErr] at herr
      · rw [hfind]
        rfl

theorem sanFields_ok (fields : List (String × Json)) (d : Nat)
    (IH : ∀ kv, kv ∈ fields → ∀ d2 w, sanitize_recursive kv.2 d2 = .ok w →
      containsDanger w = false) :
    ∀ fs, sanitizeFields fields d = .ok fs →
      fs.map Prod.fst = fields.map Prod.fst ∧ dangerFields fs = false := by
  induction fields with
  | nil =>
    intro fs h
    rw [san_fields_nil] at h
    cases h
    exact ⟨rfl, rfl⟩
  | cons kv rest ih =>
    obtain ⟨k, v⟩ := kv
    intro fs h
    rw [san_fields_cons] at h
    rcases hs : sanitize_recursive v (d + 1) with e | v2 <;> rw [hs] at h
    · simp at h
    · rcases hr : sanitizeFields rest d with e | rest2 <;> rw [hr] at h
      · simp at h
      · cases h
        have hrest := ih (fun kv hm => IH kv (List.mem_cons_of_mem _ hm)) rest2 hr
        refine ⟨?_, ?_⟩
        · simpa using hrest.1
        · rw [dangerFields, IH (k, v) (List.mem_cons_self _ _) (d + 1) v2 hs, hrest.2]
          rfl

theorem sanItems_ok (items : List Json) (d : Nat)
    (IH : ∀ v, v ∈ items → ∀ d2 w, sanitize_recursive v d2 = .ok w →
      containsDanger w = false) :
    ∀ xs, sanitizeItems items d = .ok xs → dangerItems xs = false := by
  induction items with
  | nil =>
    intro xs h
    rw [san_items_nil] at h
    cases h
    rfl
  | cons v rest ih =>
    intro xs h
    rw [san_items_cons] at h
    rcases hs : sanitize_recursive v (d + 1) with e | v2 <;> rw [hs] at h
    · simp at h
    · rcases hr : sanitizeItems rest d with e | rest2 <;> rw [hr] at h
      · simp at h
      · cases h
        rw [dangerItems, IH v (List.mem_cons_self _ _) (d + 1) v2 hs,
          ih (fun x hm => IH x (List.mem_cons_of_mem _ hm)) rest2 hr]
        rfl

/-- Two field lists with the same key sequence agree on the dangerous-key
check. -/
theorem any_danger_congr :
    ∀ (xs ys : List (String × Json)), xs.map Prod.fst = ys.map Prod.fst →
      xs.any (fun kv => DANGEROUS_KEYS.contains kv.1) =
        ys.any (fun kv => DANGEROUS_KEYS.contains kv.1) := by
  intro xs
  induction xs with
  | nil =>
    intro ys h
    cases ys with
    | nil => rfl
    | cons y ys2 => simp at h
  | cons x xs2 ih =>
    intro ys h
    cases ys with
    | nil => simp at h
    | cons y ys2 =>
      simp only [List.map_cons, List.cons.injEq] at h
      rw [List.any_cons, List.any_cons, h.1, ih ys2 h.2]

/-- Every value the sanitizer returns is free of dangerous keys. -/
theorem san_ok_clean :
    ∀ v : Json, ∀ d w, sanitize_recursive v d = .ok w →
      containsDanger w = false := by
  intro v
  induction v using jsonInduction with
  | hnull =>
    intro d w h
    by_cases hd : d > MAX_DEPTH
    · rw [san_deep _ _ hd] at h; simp at h
    · rw [san_null _ hd] at h; cases h; rfl
  | hbool b =>
    intro d w h
    by_cases hd : d > MAX_DEPTH
    · rw [san_deep _ _ hd] at h; simp at h
    · rw [san_bool _ _ hd] at h; cases h; rfl
  | hnum n =>
    intro d w h
    by_cases hd : d > MAX_DEPTH
    · rw [san_deep _ _ hd] at h; simp at h
    · rw [san_num _ _ hd] at h; cases h; rfl
  | hstr s =>
    intro d w h
    by_cases hd : d > MAX_DEPTH
    · rw [san_deep _ _ hd] at h; simp at h
    · rw [san_str _ _ hd] at h; cases h; rfl
  | harr items IH =>
    intro d w h
    by_cases hd : d > MAX_DEPTH
    · rw [san_deep _ _ hd] at h; simp at h
    · rw [san_arr _ _ hd] at h
      rcases hr : sanitizeItems items d with e | xs <;> rw [hr] at h
      · simp at h
      · cases h
        rw [containsDanger]
        exact sanItems_ok items d IH xs hr
  | hobj fields IH =>
    intro d w h
    by_cases hd : d > MAX_DEPTH
    · rw [san_deep _ _ hd] at h; simp at h
    · rw [san_obj _ _ hd] at h
      rcases hfind : fields.find? (fun kv => DANGEROUS_KEYS.contains kv.1)
          with _ | kv <;> rw [hfind] at h
      · rcases hr : sanitizeFields fields d with e | fs <;> rw [hr] at h
        · simp at h
        · cases h
          obtain ⟨hkeys, hdang⟩ := sanFields_ok fields d IH fs hr
          rw [containsDanger, hdang, Bool.or_false]
          have hany : fields.any (fun kv => DANGEROUS_KEYS.contains kv.1) = false := by
            rcases hx : fields.any (fun kv => DANGEROUS_KEYS.contains kv.1) with _ | _
            · rfl
            · exact absurd hfind (find_of_any fields hx)
          rw [any_danger_congr fs fields hkeys]
          exact hany
      · simp at h

theorem sanFields_depth_err (fields : List (String × Json)) (d : Nat)
    (hd : ¬d > MAX_DEPTH)
    (IH : ∀ kv, kv ∈ fields → ∀ d2, MAX_DEPTH < d2 + jsonDepth kv.2 →
      isErr (sanitize_recursive kv.2 d2) = true)
    (h : MAX_DEPTH < d + depthFields fields) :
    isErr (sanitizeFields fields d) = true := by
  induction fields with
  | nil =>
    rw [depthFields] at h
    omega
  | cons kv rest ih =>
    obtain ⟨k, v⟩ := kv
    rw [depthFields] at h
    rw [san_fields_cons]
    rcases hs : sanitize_recursive v (d + 1) with e | v2
    · rfl
    · rcases hr : sanitizeFields rest d with e | rest2
      · rfl
      · have hcase : MAX_DEPTH < d + 1 + jsonDepth v ∨ MAX_DEPTH < d + depthFields rest := by
          omega
        rcases hcase with hv | hrest
        · have := IH (k, v) (List.mem_cons_self _ _) (d + 1) (by simpa using hv)
          rw [hs] at this
          simp [isErr] at this
        · have := ih (fun kv hm => IH kv (List.mem_cons_of_mem _ hm)) hrest
          rw [hr] at this
          simp [isErr] at this

theorem sanItems_depth_err (items : List Json) (d : Nat)
    (hd : ¬d > MAX_DEPTH)
    (IH : ∀ v, v ∈ items → ∀ d2, MAX_DEPTH < d2 + jsonDepth v →
      isErr (sanitize_recursive v d2) = true)
    (h : MAX_DEPTH < d + depthItems items) :
    isErr (sanitizeItems items d) = true := by
  induction items with
  | nil =>
    rw [depthItems] at h
    omega
  | cons v rest ih =>
    rw [depthItems] at h
    rw [san_items_cons]
    rcases hs : sanitize_recursive v (d + 1) with e | v2
    · rfl
    · rcases hr : sanitizeItems rest d with e | rest2
      · rfl
      · have hcase : MAX_DEPTH < d + 1 + jsonDepth v ∨ MAX_DEPTH < d + depthItems rest := by
          omega
        rcases hcase with hv | hrest
        · have := IH v (List.mem_cons_self _ _) (d + 1) (by simpa using hv)
          rw [hs] at this
          simp [isErr] at this
        · have := ih (fun x hm => IH x (List.mem_cons_of_mem _ hm)) hrest
          rw [hr] at this
          simp [isErr] at this

/-- A traversal that would exceed the depth cap makes the sanitizer
error, at every starting depth. -/
theorem san_depth_err :
    ∀ v : Json, ∀ d, MAX_DEPTH < d + jsonDepth v →
      isErr (sanitize_recursive v d) = true := by
  intro v
  induction v using jsonInduction with
  | hnull =>
    intro d h
    rw [jd_null] at h
    rw [san_deep _ _ (by omega)]
    rfl
  | hbool b =>
    intro d h
    rw [jd_bool] at h
    rw [san_deep _ _ (by omega)]
    rfl
  | hnum n =>
    intro d h
    rw [jd_num] at h
    rw [san_deep _ _ (by omega)]
    rfl
  | hstr s =>
    intro d h
    rw [jd_str] at h
    rw [san_deep _ _ (by omega)]
    rfl
  | harr items IH =>
    intro d h
    rw [jd_arr] at h
    by_cases hd : d > MAX_DEPTH
    · rw [san_deep _ _ hd]; rfl
    · rw [san_arr _ _ hd]
      have herr := sanItems_depth_err items d hd IH h
      rcases hr : sanitizeItems items d with e | xs
      · rfl
      · rw [hr] at herr
        simp [isErr] at herr
  | hobj fields IH =>
    intro d h
    rw [jd_obj] at h
    by_cases hd : d > MAX_DEPTH
    · rw [san_deep _ _ hd]; rfl
    · rw [san_obj _ _ hd]
      rcases hfind : fields.find? (fun kv => DANGEROUS_KEYS.contains kv.1)
          with _ | kv
      · rw [hfind]
        have herr := sanFields_depth_err fields d hd IH h
        rcases hr : sanitizeFields fields d with e | fs
        · rfl
        · rw [hr] at herr
          simp [isErr] at herr
      · rw [hfind]
        rfl

theorem sanFields_ok_depth (fields : List (String × Json)) (d : Nat)
    (hd : ¬d > MAX_DEPTH)
    (IH : ∀ kv, kv ∈ fields → ∀ d2 w, sanitize_recursive kv.2 d2 = .ok w →
      d2 + jsonDepth kv.2 ≤ MAX_DEPTH) :
    ∀ fs, sanitizeFields fields d = .ok fs →
      d + depthFields fields ≤ MAX_DEPTH := by
  induction fields with
  | nil =>
    intro fs h
    rw [depthFields]
    omega
  | cons kv rest ih =>
    obtain ⟨k, v⟩ := kv
    intro fs h
    rw [san_fields_cons] at h
    rcases hs : sanitize_recursive v (d + 1) with e | v2 <;> rw [hs] at h
    · simp at h
    · rcases hr : sanitizeFields rest d with e | rest2 <;> rw [hr] at h
      · simp at h
      · have hv := IH (k, v) (List.mem_cons_self _ _) (d + 1) v2 hs
        have hrest := ih (fun kv hm => IH kv (List.mem_cons_of_mem _ hm)) rest2 hr
        rw [depthFields]
        simp only at hv
        omega

theorem sanItems_ok_depth (items : List Json) (d : Nat)
    (hd : ¬d > MAX_DEPTH)
    (IH : ∀ v, v ∈ items → ∀ d2 w, sanitize_recursive v d2 = .ok w →
      d2 + jsonDepth v ≤ MAX_DEPTH) :
    ∀ xs, sanitizeItems items d = .ok xs →
      d + depthItems items ≤ MAX_DEPTH := by
  induction items with
  | nil =>
    intro xs h
    rw [depthItems]
    omega
  | cons v rest ih =>
    intro xs h
    rw [san_items_cons] at h
    rcases hs : sanitize_recursive v (d + 1) with e | v2 <;> rw [hs] at h
    · simp at h
    · rcases hr : sanitizeItems rest d with e | rest2 <;> rw [hr] at h
      · simp at h
      · have hv := IH v (List.mem_cons_self _ _) (d + 1) v2 hs
        have hrest := ih (fun x hm => IH x (List.mem_cons_of_mem _ hm)) rest2 hr
        rw [depthItems]
        omega

/-- Every value the sanitizer accepts keeps the traversal within the
depth cap. -/
theorem san_ok_depth :
    ∀ v : Json, ∀ d w, sanitize_recursive v d = .ok w →
      d + jsonDepth v ≤ MAX_DEPTH := by
  intro v
  induction v using jsonInduction with
  | hnull =>
    intro d w h
    by_cases hd : d > MAX_DEPTH
    · rw [san_deep _ _ hd] at h; simp at h
    · rw [jd_null]; omega
  | hbool b =>
    intro d w h
    by_cases hd : d > MAX_DEPTH
    · rw [san_deep _ _ hd] at h; simp at h
    · rw [jd_bool]; omega
  | hnum n =>
    intro d w h
    by_cases hd : d > MAX_DEPTH
    · rw [san_deep _ _ hd] at h; simp at h
    · rw [jd_num]; omega
  | hstr s =>
    intro d w h
    by_cases hd : d > MAX_DEPTH
    · rw [san_deep _ _ hd] at h; simp at h
    · rw [jd_str]; omega
  | harr items IH =>
    intro d w h
    by_cases hd : d > MAX_DEPTH
    · rw [san_deep _ _ hd] at h; simp at h
    · rw [san_arr _ _ hd] at h
      rcases hr : sanitizeItems items d with e | xs <;> rw [hr] at h
      · simp at h
      · rw [jd_arr]
        exact sanItems_ok_depth items d hd IH xs hr
  | hobj fields IH =>
    intro d w h
    by_cases hd : d > MAX_DEPTH
    · rw [san_deep _ _ hd] at h; simp at h
    · rw [san_obj _ _ hd] at h
      rcases hfind : fields.find? (fun kv => DANGEROUS_KEYS.contains kv.1)
          with _ | kv <;> rw [hfind] at h
      · rcases hr : sanitizeFields fields d with e | fs <;> rw [hr] at h
        · simp at h
        · rw [jd_obj]
          exact sanFields_ok_depth fields d hd IH fs hr
      · simp at h

theorem sanFields_clean_err (fields : List (String × Json)) (d : Nat)
    (IH : ∀ kv, kv ∈ fields → ∀ d2 e, containsDanger kv.2 = false →
      sanitize_recursive kv.2 d2 = .error e → e = .tooDeep)
    (hclean : dangerFields fields = false) :
    ∀ e, sanitizeFields fields d = .error e → e = .tooDeep := by
  induction fields with
  | nil =>
    intro e h
    rw [san_fields_nil] at h
    simp at h
  | cons kv rest ih =>
    obtain ⟨k, v⟩ := kv
    rw [dangerFields, Bool.or_eq_false_iff] at hclean
    intro e h
    rw [san_fields_cons] at h
    rcases hs : sanitize_recursive v (d + 1) with e2 | v2 <;> rw [hs] at h
    · cases h
      exact IH (k, v) (List.mem_cons_self _ _) (d + 1) _ hclean.1 hs
    · rcases hr : sanitizeFields rest d with e2 | rest2 <;> rw [hr] at h
      · cases h
        exact ih (fun kv hm => IH kv (List.mem_cons_of_mem _ hm)) hclean.2 _ hr
      · simp at h

theorem sanItems_clean_err (items : List Json) (d : Nat)
    (IH : ∀ v, v ∈ items → ∀ d2 e, containsDanger v = false →
      sanitize_recursive v d2 = .error e → e = .tooDeep)
    (hclean : dangerItems items = false) :
    ∀ e, sanitizeItems items d = .error e → e = .tooDeep := by
  induction items with
  | nil =>
    intro e h
    rw [san_items_nil] at h
    simp at h
  | cons v rest ih =>
    rw [dangerItems, Bool.or_eq_false_iff] at hclean
    intro e h
    rw [san_items_cons] at h
    rcases hs : sanitize_recursive v (d + 1) with e2 | v2 <;> rw [hs] at h
    · cases h
      exact IH v (List.mem_cons_self _ _) (d + 1) _ hclean.1 hs
    · rcases hr : sanitizeItems rest d with e2 | rest2 <;> rw [hr] at h
      · cases h
        exact ih (fun x hm => IH x (List.mem_cons_of_mem _ hm)) hclean.2 _ hr
      · simp at h

/-- When no dangerous key is present the only error the sanitizer can
produce is the depth error. -/
theorem san_clean_err :
    ∀ v : Json, ∀ d e, containsDanger v = false →
      sanitize_recursive v d = .error e → e = .tooDeep := by
  intro v
  induction v using jsonInduction with
  | hnull =>
    intro d e hc h
    by_cases hd : d > MAX_DEPTH
    · rw [san_deep _ _ hd] at h; cases h; rfl
    · rw [san_null _ hd] at h; simp at h
  | hbool b =>
    intro d e hc h
    by_cases hd : d > MAX_DEPTH
    · rw [san_deep _ _ hd] at h; cases h; rfl
    · rw [san_bool _ _ hd] at h; simp at h
  | hnum n =>
    intro d e hc h
    by_cases hd : d > MAX_DEPTH
    · rw [san_deep _ _ hd] at h; cases h; rfl
    · rw [san_num _ _ hd] at h; simp at h
  | hstr s =>
    intro d e hc h
    by_cases hd : d > MAX_DEPTH
    · rw [san_deep _ _ hd] at h; cases h; rfl
    · rw [san_str _ _ hd] at h; simp at h
  | harr items IH =>
    intro d e hc h
    by_cases hd : d > MAX_DEPTH
    · rw [san_deep _ _ hd] at h; cases h; rfl
    · rw [containsDanger] at hc
      rw [san_arr _ _ hd] at h
      rcases hr : sanitizeItems items d with e2 | xs <;> rw [hr] at h
      · cases h
        exact sanItems_clean_err items d IH hc _ hr
      · simp at h
  | hobj fields IH =>
    intro d e hc h
    by_cases hd : d > MAX_DEPTH
    · rw [san_deep _ _ hd] at h; cases h; rfl
    · rw [containsDanger, Bool.or_eq_false_iff] at hc
      rw [san_obj _ _ hd] at h
      rcases hfind : fields.find? (fun kv => DANGEROUS_KEYS.contains kv.1)
          with _ | kv <;> rw [hfind] at h
      · rcases hr : sanitizeFields fields d with e2 | fs <;> rw [hr] at h
        · cases h
          exact sanFields_clean_err fields d IH hc.2 _ hr
        · simp at h
      · have hpred := List.find?_some hfind
        have hmem := List.mem_of_find?_eq_some hfind
        have : fields.any (fun kv => DANGEROUS_KEYS.contains kv.1) = true :=
          List.any_eq_true.mpr ⟨kv, hmem, hpred⟩
        rw [hc.1] at this
        simp at this

/-! ## Claim theorems for the sanitizer -/

/-- C2: for every JSON value that contains, at any depth (inside nested
objects or inside objects nested in arrays), an object with a key equal
to `__proto__`, `constructor`, or `prototype`, `sanitize_props` returns
an error; and any value it returns contains no such key in any
sub-object. -/
theorem claim_C2_sanitizer_completeness (v : Json) :
    (containsDanger v = true → isErr (sanitize_props v) = true) ∧
    (∀ w, sanitize_props v = .ok w → containsDanger w = false) :=
  ⟨fun h => san_danger_err v 0 h, fun w h => san_ok_clean v 0 w h⟩

/-- Witness for C2: a pollution key nested inside an array is rejected,
and a clean value comes back clean. -/
theorem claim_C2_witness :
    isErr (sanitize_props (Json.obj
      [("items", Json.arr [Json.obj [("__proto__", Json.null)]])])) = true ∧
    containsDanger (Json.obj [("title", Json.str "hi")]) = false :=
  ⟨(claim_C2_sanitizer_completeness
      (Json.obj [("items", Json.arr [Json.obj [("__proto__", Json.null)]])])).1
      (by decide),
   (claim_C2_sanitizer_completeness (Json.obj [("title", Json.str "hi")])).2
      (Json.obj [("title", Json.str "hi")]) rfl⟩

/-- C9: `sanitize_props` fails on every value whose traversal exceeds
nesting depth 32 — with the "too deep" error whenever no pollution key
stops the traversal first — and every value it accepts has nesting depth
at most 32 (`jsonDepth` counts nested containers from the root). -/
theorem claim_C9_depth_limit (v : Json) :
    (MAX_DEPTH < jsonDepth v → isErr (sanitize_props v) = true) ∧
    (∀ w, sanitize_props v = .ok w → jsonDepth v ≤ MAX_DEPTH) ∧
    (containsDanger v = false → MAX_DEPTH < jsonDepth v →
      sanitize_props v = .error .tooDeep) := by
  refine ⟨?_, ?_, ?_⟩
  · intro h
    exact san_depth_err v 0 (by omega)
  · intro w h
    have := san_ok_depth v 0 w h
    omega
  · intro hc h
    have herr := san_depth_err v 0 (by omega)
    rcases hx : sanitize_props v with e | w
    · rw [san_clean_err v 0 e hc hx]
    · have hx2 : sanitize_recursive v 0 = Except.ok w := hx
      rw [hx2] at herr
      simp [isErr] at herr

set_option maxRecDepth 40000 in
/-- Witness for C9: a 33-level chain of objects is rejected with the
depth error while a 32-level chain stays within the bound. -/
theorem claim_C9_witness :
    isErr (sanitize_props (deepChain 33)) = true ∧
    jsonDepth (deepChain 32) ≤ MAX_DEPTH ∧
    sanitize_props (deepChain 33) = .error .tooDeep :=
  ⟨(claim_C9_depth_limit (deepChain 33)).1 (by decide),
   (claim_C9_depth_limit (deepChain 32)).2.1 (deepChain 32) rfl,
   (claim_C9_depth_limit (deepChain 33)).2.2 (by decide) (by decide)⟩

/-! ## Claim theorems for the loader -/

/-- C1: every successful `load` is of a path whose canonicalization
exists and extends the loader's canonicalized `chunks_dir` as a path
prefix; `load` errors whenever canonicalization fails or lands outside
`chunks_dir`; and a loader built by `SandboxedLoader::new` stores
exactly the canonicalization of the directory it was given. -/
theorem claim_C1_load_containment (fs : Fs) (l : SandboxedLoader) (spec : FileUrl) :
    (∀ code, load fs l spec = .ok code →
      ∃ p c, toFilePath spec = some p ∧ fs.canonicalize p = some c ∧
        l.allowed_dir.isPrefixOf c = true) ∧
    (∀ p, toFilePath spec = some p →
      (fs.canonicalize p = none ∨
        ∀ c, fs.canonicalize p = some c → l.allowed_dir.isPrefixOf c = false) →
      isErr (load fs l spec) = true) ∧
    (∀ dir l2, SandboxedLoader.new fs dir = .ok l2 →
      fs.canonicalize dir = some l2.allowed_dir) := by
  refine ⟨?_, ?_, ?_⟩
  · intro code h
    rw [load] at h
    rcases ht : toFilePath spec with _ | p <;> rw [ht] at h
    · simp at h
    · dsimp only at h
      rcases ha : is_path_allowed fs l p with _ | _
      · rw [ha] at h
        simp at h
      · rw [is_path_allowed] at ha
        rcases hc : fs.canonicalize p with _ | c <;> rw [hc] at ha
        · simp at ha
        · exact ⟨p, c, rfl, hc, ha⟩
  · intro p ht hbad
    rw [load, ht]
    dsimp only
    have hfalse : is_path_allowed fs l p = false := by
      rw [is_path_allowed]
      rcases hc : fs.canonicalize p with _ | c
      · rfl
      · rcases hbad with hbad | hbad
        · rw [hbad] at hc
          simp at hc
        · exact hbad c hc
    rw [hfalse]
    rfl
  · intro dir l2 h
    rw [SandboxedLoader.new] at h
    rcases hc : fs.canonicalize dir with _ | c <;> rw [hc] at h
    · simp at h
    · dsimp only at h
      rcases hdir : fs.isDir c with _ | _
      · simp [hdir] at h
      · rw [if_pos hdir] at h
        cases h
        rfl

/-- Witness for C1: `entry.js` inside the demo chunks directory loads and
its canonical path extends the chunks directory; `/etc/evil.js` (outside)
is refused. -/
theorem claim_C1_witness :
    (∃ p c, toFilePath (FileUrl.mk "file" ["srv", "chunks", "entry.js"]) = some p ∧
      fsDemo.canonicalize p = some c ∧
      loaderDemo.allowed_dir.isPrefixOf c = true) ∧
    isErr (load fsDemo loaderDemo (FileUrl.mk "file" ["etc", "evil.js"])) = true := by
  refine ⟨?_, ?_⟩
  · exact (claim_C1_load_containment fsDemo loaderDemo
      (FileUrl.mk "file" ["srv", "chunks", "entry.js"])).1 "export default 1" rfl
  · exact (claim_C1_load_containment fsDemo loaderDemo
      (FileUrl.mk "file" ["etc", "evil.js"])).2.1 ["etc", "evil.js"] rfl
      (Or.inr (by intro c hc; injection hc with h2; rw [← h2]; decide))

/-- C5 (amended): `resolve` rejects every specifier beginning with the
exact lowercase prefixes `http://`, `https://`, `data:` or `blob:`,
regardless of referrer; and every specifier it does accept denotes a
`file` URL whose canonical path lies inside `chunks_dir` — never the
remote source.  (Mixed-case remote schemes are not matched by the
prefix test; they fall into the bare-specifier branch.) -/
theorem claim_C5_remote_rejection (lib : UrlLib) (fs : Fs) (l : SandboxedLoader)
    (s r : String) :
    (strStarts s "http://" = true ∨ strStarts s "https://" = true ∨
      strStarts s "data:" = true ∨ strStarts s "blob:" = true →
      resolve lib fs l s r = .error "Remote imports are forbidden") ∧
    (∀ u, resolve lib fs l s r = .ok u → u.scheme = "file" ∧
      ∃ p c, toFilePath u = some p ∧ fs.canonicalize p = some c ∧
        l.allowed_dir.isPrefixOf c = true) := by
  constructor
  · intro h
    have hcond : (strStarts s "http://" || strStarts s "https://" ||
        strStarts s "data:" || strStarts s "blob:") = true := by
      rcases h with h | h | h | h <;> simp [h]
    rw [resolve, if_pos hcond]
  · intro u h
    rw [resolve] at h
    rcases hrem : (strStarts s "http://" || strStarts s "https://" ||
        strStarts s "data:" || strStarts s "blob:") with _ | _ <;>
      rw [hrem] at h
    case true => simp at h
    case false =>
    simp only [Bool.false_eq_true, if_false] at h
    rcases hres : resolveTarget lib l s r with e | resolved <;> rw [hres] at h
    · simp at h
    · dsimp only at h
      by_cases hsch : resolved.scheme = "file"
      · rw [if_neg (not_not_intro hsch)] at h
        rcases ht : toFilePath resolved with _ | p <;> rw [ht] at h
        · simp at h
        · dsimp only at h
          rcases ha : is_path_allowed fs l p with _ | _ <;> rw [ha] at h
          · simp at h
          · rcases hx : is_extension_allowed p with _ | _ <;> rw [hx] at h
            · simp at h
            · simp only [Bool.not_true, Bool.false_eq_true, if_false] at h
              cases h
              rw [is_path_allowed] at ha
              rcases hc : fs.canonicalize p with _ | c <;> rw [hc] at ha
              · simp at ha
              · exact ⟨hsch, p, c, ht, hc, ha⟩
      · rw [if_pos hsch] at h
        simp at h

/-- Witness for the amended C5: lowercase remote prefixes are refused. -/
theorem claim_C5_witness :
    resolve libDemo fsDemo loaderDemo "http://evil.com/payload.js"
        "file:///srv/chunks/entry.js" = .error "Remote imports are forbidden" ∧
    resolve libDemo fsDemo loaderDemo "data:text/javascript,1"
        "file:///srv/chunks/entry.js" = .error "Remote imports are forbidden" :=
  ⟨(claim_C5_remote_rejection libDemo fsDemo loaderDemo
      "http://evil.com/payload.js" "file:///srv/chunks/entry.js").1
      (Or.inl (by decide)),
   (claim_C5_remote_rejection libDemo fsDemo loaderDemo
      "data:text/javascript,1" "file:///srv/chunks/entry.js").1
      (Or.inr (Or.inr (Or.inl (by decide))))⟩

/-- C5 counterexample: the specifier `HTTP://evil.com/x.js` has scheme
`http` up to letter case, but the case-sensitive prefix test misses it:
it is treated as a bare specifier, joined under the chunks directory,
and — the matching local file existing in `fsDemo` — `resolve` returns
`.ok`, not an error. -/
theorem claim_C5_counterexample :
    strStarts (strLower "HTTP://evil.com/x.js") "http://" = true ∧
    resolve libDemo fsDemo loaderDemo "HTTP://evil.com/x.js"
        "file:///srv/chunks/entry.js" =
      .ok ⟨"file", ["srv", "chunks", "HTTP:", "evil.com", "x.js"]⟩ := by
  constructor
  · decide
  · rfl

/-! ## Claim theorems for the execution driver -/

/-- C6 (amended): `execute_ssr` canonicalizes `entry_path` and fails when
canonicalization (or specifier construction) fails, but it performs no
driver-level containment check: whenever canonicalization succeeds the
render invocation expression is built and handed to the engine, whether
or not the canonical path lies inside `chunks_dir`.  Containment is
enforced only by the loader's `resolve` when the engine imports the
module. -/
theorem claim_C6_no_driver_containment (fs : Fs) (lib : UrlLib)
    (entry : List String) (pj : String) :
    (fs.canonicalize entry = none →
      isErr (execute_ssr_prepare fs lib entry pj) = true) ∧
    (∀ c u, fs.canonicalize entry = some c → lib.fromFilePath c = some u →
      execute_ssr_prepare fs lib entry pj = .ok (renderCode u pj)) := by
  constructor
  · intro h
    rw [execute_ssr_prepare, h]
    rfl
  · intro c u hc hu
    rw [execute_ssr_prepare, hc]
    dsimp only
    rw [hu]

/-- Witness for the amended C6: a nonexistent entry fails
canonicalization, and an existing entry yields the invocation
expression. -/
theorem claim_C6_witness :
    isErr (execute_ssr_prepare fsDemo libDemo ["nonexistent"] "null") = true ∧
    execute_ssr_prepare fsDemo libDemo ["srv", "chunks", "entry.js"] "null" =
      .ok (renderCode ⟨"file", ["srv", "chunks", "entry.js"]⟩ "null") :=
  ⟨(claim_C6_no_driver_containment fsDemo libDemo ["nonexistent"] "null").1 rfl,
   (claim_C6_no_driver_containment fsDemo libDemo
      ["srv", "chunks", "entry.js"] "null").2
      ["srv", "chunks", "entry.js"] ⟨"file", ["srv", "chunks", "entry.js"]⟩ rfl rfl⟩

/-- C6 counterexample: `/etc/evil.js` canonicalizes fine, its canonical
path is outside the chunks directory, yet `execute_ssr` raises no error
before handing the render invocation to the engine — the claimed early
driver-level containment failure does not happen. -/
theorem claim_C6_counterexample :
    fsDemo.canonicalize ["etc", "evil.js"] = some ["etc", "evil.js"] ∧
    loaderDemo.allowed_dir.isPrefixOf ["etc", "evil.js"] = false ∧
    execute_ssr_prepare fsDemo libDemo ["etc", "evil.js"] "null" =
      .ok (renderCode ⟨"file", ["etc", "evil.js"]⟩ "null") :=
  ⟨rfl, by decide, rfl⟩

/-- C7 (amended): a promise still pending after the event-loop drain
makes `execute_ssr_inner` return the error "Render function returned
unresolved promise"; that is what the caller observes when `timeout_ms`
is unset, while any configured timeout rewrites it — it matches the
termination signature — into "Render timed out after <N>ms". -/
theorem claim_C7_unresolved_promise (console : ConsoleOutput) :
    execute_ssr_inner_model .promisePending console =
      .error "Render function returned unresolved promise" ∧
    execute_ssr_model none .promisePending console =
      .error "Render function returned unresolved promise" ∧
    ∀ ms, execute_ssr_model (some ms) .promisePending console =
      .error ("Render timed out after " ++ toString ms ++ "ms") := by
  refine ⟨rfl, rfl, ?_⟩
  intro ms
  show timeout_rewrite ms
    (.error "Render function returned unresolved promise") = _
  rw [timeout_rewrite]
  rw [if_pos (by decide)]

/-- C7 counterexample: with `timeout_ms = 5000` a pending promise
surfaces as the timeout error, not as "Render function returned
unresolved promise". -/
theorem claim_C7_counterexample :
    execute_ssr_model (some 5000) .promisePending ConsoleOutput.empty =
      .error "Render timed out after 5000ms" ∧
    ("Render timed out after 5000ms" : String) ≠
      "Render function returned unresolved promise" := by
  constructor
  · rfl
  · decide

/-! ## Claim theorems for the gated fetch -/

/-- C3: for every fetch request whose URL parses, the origin policy
check succeeds exactly when the URL's origin serialization is a member
of `allowed_origins`; a disallowed origin — in particular any origin
under an empty allowlist — makes `do_fetch` error without issuing any
request. -/
theorem claim_C3_fetch_origin_gate (w : HttpWorld) (config : FetchConfig)
    (fuel : Nat) (req : FetchRequest) (u : WebUrl)
    (hparse : w.parse req.url = some u) :
    (config.is_origin_allowed u = true ↔ u.origin ∈ config.allowed_origins) ∧
    (config.is_origin_allowed u = false →
      isErr (do_fetch w config (fuel + 1) req).1 = true ∧
      (do_fetch w config (fuel + 1) req).2 = []) ∧
    (config.allowed_origins = [] →
      isErr (do_fetch w config (fuel + 1) req).1 = true ∧
      (do_fetch w config (fuel + 1) req).2 = []) := by
  have key : config.is_origin_allowed u = false →
      isErr (do_fetch w config (fuel + 1) req).1 = true ∧
      (do_fetch w config (fuel + 1) req).2 = [] := by
    intro hfalse
    rw [do_fetch, hparse]
    dsimp only
    rw [hfalse]
    exact ⟨rfl, rfl⟩
  refine ⟨?_, key, ?_⟩
  · rw [FetchConfig.is_origin_allowed]
    rcases hl : config.allowed_origins with _ | ⟨a, as⟩
    · simp
    · simp [List.any_eq_true, beq_iff_eq]
  · intro hnil
    apply key
    rw [FetchConfig.is_origin_allowed, hnil]
    rfl

/-- Witness for C3: with an empty allowlist the fetch of a parseable URL
is rejected and no request is sent. -/
theorem claim_C3_witness :
    isErr (do_fetch webDemo ⟨[]⟩ 1
      ⟨"https://evil.com/x", none, none, none⟩).1 = true ∧
    (do_fetch webDemo ⟨[]⟩ 1 ⟨"https://evil.com/x", none, none, none⟩).2 = [] :=
  (claim_C3_fetch_origin_gate webDemo ⟨[]⟩ 0
    ⟨"https://evil.com/x", none, none, none⟩
    ⟨"https://evil.com", "https://evil.com/x"⟩ rfl).2.2 rfl

/-- C4: on a 3xx response whose `Location` resolves against the response
URL to `redirect_url`, `do_fetch` follows the redirect — reissuing a GET
with the original headers and no body — exactly when the redirect origin
equals the originating request's origin and passes the allowlist check;
otherwise it returns an error having issued only the original request. -/
theorem claim_C4_redirect_gate (w : HttpWorld) (config : FetchConfig)
    (fuel : Nat) (req : FetchRequest) (u : WebUrl) (resp : HttpResponse)
    (location : String) (redirect_url : WebUrl)
    (hparse : w.parse req.url = some u)
    (hallow : config.is_origin_allowed u = true)
    (hmethod : methodSupported (req.method.getD "GET") = true)
    (hsend : w.send req = .ok resp)
    (h3xx : 300 ≤ resp.status ∧ resp.status < 400)
    (hloc : headerGet resp.headers "location" = some location)
    (hjoin : w.join resp.url location = some redirect_url) :
    ((redirect_url.origin = u.origin ∧
        config.is_origin_allowed redirect_url = true) →
      do_fetch w config (fuel + 1) req =
        ((do_fetch w config fuel
            ⟨redirect_url.full, some "GET", req.headers, none⟩).1,
         req :: (do_fetch w config fuel
            ⟨redirect_url.full, some "GET", req.headers, none⟩).2)) ∧
    ((redirect_url.origin ≠ u.origin ∨
        config.is_origin_allowed redirect_url = false) →
      isErr (do_fetch w config (fuel + 1) req).1 = true ∧
      (do_fetch w config (fuel + 1) req).2 = [req]) := by
  constructor
  · rintro ⟨heq, hal⟩
    rw [do_fetch, hparse]
    dsimp only
    rw [if_neg (by simp [hallow]), if_neg (by simp [hmethod]), hsend]
    dsimp only
    rw [if_pos h3xx, hloc]
    dsimp only
    rw [hjoin]
    dsimp only
    rw [if_neg (not_not_intro heq), if_neg (by simp [hal])]
  · intro hbad
    rw [do_fetch, hparse]
    dsimp only
    rw [if_neg (by simp [hallow]), if_neg (by simp [hmethod]), hsend]
    dsimp only
    rw [if_pos h3xx, hloc]
    dsimp only
    rw [hjoin]
    dsimp only
    by_cases heq : redirect_url.origin = u.origin
    · rcases hbad with hne | hal
      · exact absurd heq hne
      · rw [if_neg (not_not_intro heq)]
        rw [hal]
        exact ⟨rfl, rfl⟩
    · rw [if_pos heq]
      exact ⟨rfl, rfl⟩

/-- Witness for C4: a 301 whose `Location` points at a different origin
is rejected after the single original request. -/
theorem claim_C4_witness :
    isErr (do_fetch webDemo ⟨["https://api.example.com"]⟩ 2
      ⟨"https://api.example.com/old", none, none, none⟩).1 = true ∧
    (do_fetch webDemo ⟨["https://api.example.com"]⟩ 2
      ⟨"https://api.example.com/old", none, none, none⟩).2 =
      [⟨"https://api.example.com/old", none, none, none⟩] :=
  (claim_C4_redirect_gate webDemo ⟨["https://api.example.com"]⟩ 1
    ⟨"https://api.example.com/old", none, none, none⟩
    ⟨"https://api.example.com", "https://api.example.com/old"⟩
    ⟨301, [("location", "https://evil.com/x")],
      ⟨"https://api.example.com", "https://api.example.com/old"⟩, ""⟩
    "https://evil.com/x"
    ⟨"https://evil.com", "https://evil.com/x"⟩
    rfl (by decide) (by decide) rfl (by decide) rfl rfl).2
    (Or.inl (by decide))

/-! ## Substring lemmas for the termination-signature matching -/

theorem charsHavePre_append (pat : List Char) :
    ∀ s r : List Char, charsHavePre pat s = true →
      charsHavePre pat (s ++ r) = true := by
  induction pat with
  | nil => intro s r _; rfl
  | cons p ps ih =>
    intro s r h
    cases s with
    | nil => simp [charsHavePre] at h
    | cons c cs =>
      rw [charsHavePre, Bool.and_eq_true] at h
      rw [List.cons_append, charsHavePre, h.1, ih cs r h.2]
      rfl

theorem charsContain_append (pat : List Char) :
    ∀ s r : List Char, charsContain pat s = true →
      charsContain pat (s ++ r) = true := by
  intro s
  induction s with
  | nil =>
    intro r h
    cases pat with
    | nil =>
      cases r with
      | nil => rfl
      | cons c cs => rfl
    | cons p ps =>
      rw [charsContain, charsHavePre] at h
      simp at h
  | cons c cs ih =>
    intro r h
    rw [charsContain, Bool.or_eq_true] at h
    rw [List.cons_append, charsContain]
    rcases h with h | h
    · have hpre := charsHavePre_append pat (c :: cs) r h
      rw [List.cons_append] at hpre
      rw [hpre]
      rfl
    · rw [ih r h]
      simp

/-- The canonical timeout message always contains "timed out", whatever
the millisecond count renders as. -/
theorem timeoutMsg_contains (ms : Nat) :
    strContains ("Render timed out after " ++ toString ms ++ "ms") "timed out" = true := by
  show charsContain "timed out".toList
    (("Render timed out after " ++ toString ms ++ "ms").data) = true
  rw [String.data_append, String.data_append, List.append_assoc]
  exact charsContain_append _ _ _ (by decide)

/-! ## Claim theorems for the server loop -/

/-- Any termination-signature error is rewritten to the canonical
timeout message by `execute_ssr` when a timeout is configured. -/
theorem execute_ssr_terminated_rewrite (ms : Nat) (msg : String)
    (outcome : RenderOutcome) (console : ConsoleOutput)
    (houtcome : outcome = .engineErr msg)
    (hterm : strContains msg "terminated" = true) :
    execute_ssr_model (some ms) outcome console =
      .error ("Render timed out after " ++ toString ms ++ "ms") := by
  rw [houtcome]
  show timeout_rewrite ms (.error msg) = _
  rw [timeout_rewrite]
  rw [if_pos (by rw [hterm]; rfl)]

/-- C8: in server mode a render terminated by the engine (the
near-heap-limit callback tripping and terminating execution surfaces as
an error whose message carries the termination signature) produces
exactly the timeout observable — the canonical "Render timed out after
Nms" error — and the runtime is recreated before the next request, for
every `timeout_ms` parameter: `run_server` builds its config with
`timeout_ms.or(Some(5000))`, so the rewrite is active even when the
timeout is unset. -/
theorem claim_C8_heap_exhaustion_recycled (t : Option Nat) (msg : String)
    (console emits : ConsoleOutput)
    (hterm : strContains msg "terminated" = true) :
    ∃ ms, server_effective_timeout t = some ms ∧
      server_step t console (.render (.engineErr msg) emits) =
        ⟨ConsoleOutput.empty,
         ⟨false, "Render timed out after " ++ toString ms ++ "ms"⟩, [], true⟩ := by
  have hstep : ∀ ms2 : Nat, server_effective_timeout t = some ms2 →
      server_step t console (.render (.engineErr msg) emits) =
        ⟨ConsoleOutput.empty,
         ⟨false, "Render timed out after " ++ toString ms2 ++ "ms"⟩, [], true⟩ := by
    intro ms2 hms
    rw [server_step]
    rw [hms]
    rw [execute_ssr_terminated_rewrite ms2 msg _ _ rfl hterm]
    dsimp only
    rw [timeoutMsg_contains ms2]
  cases t with
  | none => exact ⟨5000, rfl, hstep 5000 rfl⟩
  | some ms => exact ⟨ms, rfl, hstep ms rfl⟩

/-- Witness for C8: the V8 termination message, with the timeout
parameter unset, still yields the canonical timeout response and a
recreated runtime. -/
theorem claim_C8_witness :
    strContains "Uncaught Error: execution terminated" "terminated" = true ∧
    ∃ ms, server_effective_timeout none = some ms ∧
      server_step none ConsoleOutput.empty
        (.render (.engineErr "Uncaught Error: execution terminated")
          ⟨["boom"], [], []⟩) =
        ⟨ConsoleOutput.empty,
         ⟨false, "Render timed out after " ++ toString ms ++ "ms"⟩, [], true⟩ :=
  ⟨by decide,
   claim_C8_heap_exhaustion_recycled none "Uncaught Error: execution terminated"
     ConsoleOutput.empty ⟨["boom"], [], []⟩ (by decide)⟩

/-- A render request leaves an empty console buffer behind, whatever the
outcome. -/
theorem server_step_render_resets (t : Option Nat) (console : ConsoleOutput)
    (outcome : RenderOutcome) (emits : ConsoleOutput) :
    (server_step t console (.render outcome emits)).console =
      ConsoleOutput.empty := by
  rw [server_step]
  rcases hx : execute_ssr_model (server_effective_timeout t) outcome
      (console.append emits) with e | r <;> rfl

/-- Any step preserves emptiness of the console buffer. -/
theorem server_step_keeps_empty (t : Option Nat) (console : ConsoleOutput)
    (req : ServerRequest) (h : console = ConsoleOutput.empty) :
    (server_step t console req).console = ConsoleOutput.empty := by
  cases req with
  | badJson e => rw [server_step]; exact h
  | badProps e => rw [server_step]; exact h
  | render outcome emits => exact server_step_render_resets t console outcome emits

/-- Starting empty, the console buffer is empty again at the top of
every later loop iteration. -/
theorem server_loop_console_empty (t : Option Nat) :
    ∀ reqs : List ServerRequest,
      (server_loop t ConsoleOutput.empty reqs).1 = ConsoleOutput.empty := by
  intro reqs
  induction reqs with
  | nil => rfl
  | cons req rest ih =>
    rw [server_loop]
    rw [server_step_keeps_empty t ConsoleOutput.empty req rfl]
    exact ih

/-- C10: in server mode the console buffer is reset to empty after every
request that reaches a render — errors included — so starting from the
initial empty buffer every render begins with empty logs, warns and
errors; and the console entries captured during a failed render are
discarded: the error response body is exactly the error message and no
`[LOG]`/`[WARN]`/`[ERROR]` lines are printed for that request. -/
theorem claim_C10_console_reset (t : Option Nat) (console : ConsoleOutput)
    (req : ServerRequest) :
    (console = ConsoleOutput.empty →
      (server_step t console req).console = ConsoleOutput.empty) ∧
    (∀ outcome emits, req = .render outcome emits →
      (server_step t console req).console = ConsoleOutput.empty) ∧
    (∀ outcome emits e, req = .render outcome emits →
      execute_ssr_model (server_effective_timeout t) outcome
        (console.append emits) = .error e →
      (server_step t console req).response = ⟨false, e⟩ ∧
      (server_step t console req).stderrConsole = []) ∧
    (∀ reqs, (server_loop t ConsoleOutput.empty reqs).1 = ConsoleOutput.empty) := by
  refine ⟨server_step_keeps_empty t console req, ?_, ?_, server_loop_console_empty t⟩
  · intro outcome emits hreq
    rw [hreq]
    exact server_step_render_resets t console outcome emits
  · intro outcome emits e hreq herr
    rw [hreq, server_step]
    rw [herr]
    exact ⟨rfl, rfl⟩

/-- Witness for C10: a failed render discards its console entries — the
buffer is reset, the response body is only the error message and nothing
is printed to stderr — and a two-request loop ends with an empty
buffer. -/
theorem claim_C10_witness :
    (server_step none ConsoleOutput.empty
      (.render (.promiseRejected "boom") ⟨["log entry"], [], []⟩)).console =
        ConsoleOutput.empty ∧
    (server_step none ConsoleOutput.empty
      (.render (.promiseRejected "boom") ⟨["log entry"], [], []⟩)).response =
        ⟨false, "Render function threw: boom"⟩ ∧
    (server_step none ConsoleOutput.empty
      (.render (.promiseRejected "boom") ⟨["log entry"], [], []⟩)).stderrConsole =
        [] ∧
    (server_loop none ConsoleOutput.empty
      [.badJson "bad", .render (.plainString "<p>hi</p>") ConsoleOutput.empty]).1 =
        ConsoleOutput.empty :=
  ⟨(claim_C10_console_reset none ConsoleOutput.empty
      (.render (.promiseRejected "boom") ⟨["log entry"], [], []⟩)).2.1
      (.promiseRejected "boom") ⟨["log entry"], [], []⟩ rfl,
   ((claim_C10_console_reset none ConsoleOutput.empty
      (.render (.promiseRejected "boom") ⟨["log entry"], [], []⟩)).2.2.1
      (.promiseRejected "boom") ⟨["log entry"], [], []⟩
      "Render function threw: boom" rfl rfl).1,
   ((claim_C10_console_reset none ConsoleOutput.empty
      (.render (.promiseRejected "boom") ⟨["log entry"], [], []⟩)).2.2.1
      (.promiseRejected "boom") ⟨["log entry"], [], []⟩
      "Render function threw: boom" rfl rfl).2,
   (claim_C10_console_reset none ConsoleOutput.empty
      (.badJson "bad")).2.2.2
      [.badJson "bad", .render (.plainString "<p>hi</p>") ConsoleOutput.empty]⟩

end SsrSandbox
